import Mathlib

/-!
Verification of the profile-connection workflow and note-generation pipeline
of the linkedin-automation repository, as a shallow embedding in Lean.

Python text values are modelled as lists of unicode code points
(List Char).  Side-effecting procedures are modelled as total functions
from an explicit environment (the observable behaviour of the external
collaborators: the web driver, the generation HTTP service, the random
number generator, the file system) to a trace structure recording the
observable events (clicks, pauses, printed outcomes, driver teardown).
Exceptions raised by a collaborator are modelled as explicit failure
values in the environment; a procedure that catches every exception is
therefore a total Lean function, which is how the never-raises parts of
the claims are rendered.
-/

/-- Characters the Python function str.split treats as whitespace
(unicode whitespace, as used by str.split with no separator and by
str.strip with no argument). -/
def isPySpace (c : Char) : Bool :=
  c = ' ' || c = '\t' || c = '\n' || c.toNat = 0x0b || c.toNat = 0x0c || c = '\r' ||
  c.toNat = 0x1c || c.toNat = 0x1d || c.toNat = 0x1e || c.toNat = 0x1f ||
  c.toNat = 0x85 || c.toNat = 0xa0 || c.toNat = 0x1680 ||
  (0x2000 ≤ c.toNat && c.toNat ≤ 0x200a) ||
  c.toNat = 0x2028 || c.toNat = 0x2029 || c.toNat = 0x202f || c.toNat = 0x205f ||
  c.toNat = 0x3000

/-- A code point inside the Basic Multilingual Plane.  The source regex
re.sub of the class complement of backslash-u0000 to backslash-uFFFF
deletes exactly the characters for which this is false. -/
def isBMP (c : Char) : Bool := c.toNat ≤ 0xFFFF

/-- The Python call text.split() (no separator): the maximal
whitespace-free runs of the input, in order, with empty runs dropped. -/
def pyWords : List Char → List (List Char)
  | [] => []
  | c :: cs =>
    if isPySpace c then pyWords cs
    else
      match cs, pyWords cs with
      | [], _ => [[c]]
      | _ :: _, [] => [[c]]
      | d :: _, w :: ws => if isPySpace d then [c] :: w :: ws else (c :: w) :: ws

/-- The Python expression " ".join(ws): the words joined by single
spaces. -/
def joinWords : List (List Char) → List Char
  | [] => []
  | [w] => w
  | w :: w2 :: ws => w ++ ' ' :: joinWords (w2 :: ws)

/-- LinkedInConnector.clean_text: first delete every code point outside
the Basic Multilingual Plane (the re.sub call), then collapse whitespace
by splitting into words and re-joining with single spaces
(" ".join(text.split())). -/
def clean_text (text : List Char) : List Char :=
  joinWords (pyWords (text.filter isBMP))

/-- The Python method str.strip() with no argument: remove leading and
trailing unicode whitespace. -/
def pyStrip (l : List Char) : List Char :=
  ((l.dropWhile isPySpace).reverse.dropWhile isPySpace).reverse

/-- Modelled from the spec wording of claim C2, for refinement
comparison only: the reading in which EVERY maximal whitespace run of
the input, including a leading or trailing run, is collapsed to a
single space in the output.  The source code instead deletes leading
and trailing runs outright. -/
def collapseRunsSpec : List Char → List Char
  | [] => []
  | [c] => if isPySpace c then [' '] else [c]
  | c :: d :: cs =>
    if isPySpace c && isPySpace d then collapseRunsSpec (d :: cs)
    else (if isPySpace c then ' ' else c) :: collapseRunsSpec (d :: cs)

/-- A profile dictionary as read from the JSON file.  A field is none
when the key is absent, in which case a Python subscript access raises
KeyError. -/
structure Profile where
  name : Option (List Char)
  url : Option (List Char)
  current_position : Option (List Char)

/-- Observable behaviour of one requests.post call to the generation
service.  response carries the HTTP status code and the outcome of
parsing the body as JSON (Except.error when response.json() raises,
otherwise the optional value of the response field); connError models
requests.exceptions.ConnectionError; otherExc models any other raised
exception. -/
inductive PostResult
  | response (status : Nat) (json : Except Unit (Option (List Char)))
  | connError
  | otherExc

/-- The fixed fallback note returned by
LinkedInConnector.generate_connection_note on any failure. -/
def fallback_note : List Char :=
  "Hi, I'd love to connect and expand our professional network.".data

/-- Result of generate_connection_note: the returned note, whether the
length-exceeded warning was printed, and whether the HTTP request was
issued at all. -/
structure GenResult where
  note : List Char
  warned : Bool
  requested : Bool

/-- LinkedInConnector.generate_connection_note.  The prompt is built
from the subscripts profile_data of name and of current_position; a
missing key raises KeyError inside the try block, before the HTTP call,
and is caught by the generic except clause, yielding the fallback note.
On HTTP 200 the response field (default the empty string) is stripped,
cleaned with clean_text and hard-truncated to 200 characters, with a
warning printed when the cleaned note exceeds 200 characters.  Every
other path, including a non-200 status, a connection failure or any
other exception, returns the fallback note.  The function is total: no
exception escapes to the caller. -/
def generate_connection_note (profile_data : Profile) (post : PostResult) : GenResult :=
  match profile_data.name, profile_data.current_position with
  | some _, some _ =>
    match post with
    | .response status json =>
      if status = 200 then
        match json with
        | .ok field =>
          let note := pyStrip (field.getD [])
          let cleaned_note := clean_text note
          ⟨cleaned_note.take 200, decide (200 < cleaned_note.length), true⟩
        | .error _ => ⟨fallback_note, false, true⟩
      else ⟨fallback_note, false, true⟩
    | .connError => ⟨fallback_note, false, true⟩
    | .otherExc => ⟨fallback_note, false, true⟩
  | _, _ => ⟨fallback_note, false, false⟩

/-- generate_text of llama_client.py.  On HTTP 200 it returns the
response field of the parsed JSON (default the empty string) stripped
of surrounding whitespace; a non-200 status, a connection error, a JSON
parse error or any other exception yields the empty string.  Total:
never raises. -/
def generate_text (post : PostResult) : List Char :=
  match post with
  | .response status json =>
    if status = 200 then
      match json with
      | .ok result => pyStrip (result.getD [])
      | .error _ => []
    else []
  | .connError => []
  | .otherExc => []

/-- Behaviour of one loop iteration of click_button_safely on a given
element: success when is_displayed and is_enabled hold and the
scroll-and-click scripts run without raising; notClickable when
is_displayed and is_enabled evaluates to false without raising; exc
when any of the calls in the try block raises. -/
inductive ClickAttempt
  | success
  | notClickable
  | exc

/-- Observable outcome of click_button_safely: the returned boolean,
the number of loop iterations executed, and the number of 2-second
backoff sleeps performed. -/
structure ClickTrace where
  result : Bool
  attempts : Nat
  backoffs : Nat

/-- The for-loop of click_button_safely over the remaining attempt
indices.  A successful attempt returns true at once; a notClickable
attempt falls through to the next iteration with no sleep; an exc
attempt sleeps 2 seconds only when it is not the last attempt.  When
the loop exhausts its iterations the method returns false. -/
def clickLoop (b : Nat → ClickAttempt) : List Nat → ClickTrace
  | [] => ⟨false, 0, 0⟩
  | i :: rest =>
    match b i with
    | .success => ⟨true, 1, 0⟩
    | .notClickable =>
      let t := clickLoop b rest
      ⟨t.result, t.attempts + 1, t.backoffs⟩
    | .exc =>
      let t := clickLoop b rest
      ⟨t.result, t.attempts + 1, if rest.isEmpty then t.backoffs else t.backoffs + 1⟩

/-- LinkedInConnector.click_button_safely: max_attempts = 3, attempt
indices 0, 1, 2. -/
def click_button_safely (b : Nat → ClickAttempt) : ClickTrace :=
  clickLoop b [0, 1, 2]

/-- Containment of one code-point sequence in another, the Python
operator needle in haystack on strings. -/
def isSubstring (needle hay : List Char) : Bool :=
  hay.tails.any (fun t => needle.isPrefixOf t)

/-- The test applied to a candidate button text after lowering: the
source checks kw1 in text or kw2 in text on text.lower(). -/
def text_matches (kw1 kw2 t : List Char) : Bool :=
  isSubstring kw1 (t.map Char.toLower) || isSubstring kw2 (t.map Char.toLower)

/-- A DOM element as the workflow observes it: the outcome of reading
element.text (Except.error when the access raises, caught by the inner
bare except), and the behaviour of click attempts on it. -/
structure ElemModel where
  textR : Except Unit (List Char)
  clicks : Nat → ClickAttempt

/-- Inner loop of find_and_click_send_button over the buttons matched
by one selector: skip a button whose text access raises or whose
lowered text contains neither send nor done; otherwise click it via
click_button_safely, returning true on the first success. -/
def try_send_buttons : List ElemModel → Bool
  | [] => false
  | e :: rest =>
    match e.textR with
    | .error _ => try_send_buttons rest
    | .ok t =>
      if text_matches "send".data "done".data t then
        if (click_button_safely e.clicks).result then true else try_send_buttons rest
      else try_send_buttons rest

/-- LinkedInConnector.find_and_click_send_button: iterate the selector
list; a selector whose find_elements call raises is skipped; otherwise
its element list is scanned by try_send_buttons; false when every
selector is exhausted. -/
def find_and_click_send_button : List (Except Unit (List ElemModel)) → Bool
  | [] => false
  | .error _ :: rest => find_and_click_send_button rest
  | .ok elems :: rest =>
    if try_send_buttons elems then true else find_and_click_send_button rest

/-- The loop over the Add-a-note candidate buttons inside
connect_with_profile: skip on text-access failure or non-matching text
(note or message); click the first matching clickable one. -/
def try_note_buttons : List ElemModel → Bool
  | [] => false
  | e :: rest =>
    match e.textR with
    | .error _ => try_note_buttons rest
    | .ok t =>
      if text_matches "note".data "message".data t then
        if (click_button_safely e.clicks).result then true else try_note_buttons rest
      else try_note_buttons rest

/-- What the page offers after a connect button has been clicked
successfully: the Add-a-note candidate buttons returned by the bounded
wait, the per-selector outcome of the six note-textarea selectors
(true when presence, clickability and the set-value scripts all
succeed for that selector), the generation-service behaviour for the
note, and the per-selector element lists for the send-button search. -/
structure AddNoteEnv where
  note_buttons : List ElemModel
  textarea_selectors : List Bool
  backend : PostResult
  send_selectors : List (Except Unit (List ElemModel))

/-- One candidate connect button: its click behaviour and what follows
a successful click (Except.error when the bounded wait for the
Add-a-note buttons raises TimeoutException, caught by the inner
except, which continues with the next connect button). -/
structure ConnectBtnEnv where
  clicks : Nat → ClickAttempt
  dialog : Except Unit AddNoteEnv

/-- Environment of one connect_with_profile call: whether driver.get
returns without raising, and the outcome of the find_elements search
for connect buttons (Except.error when it raises; both failures are
caught by the outer except, returning false). -/
structure ConnectEnv where
  nav_ok : Bool
  connect_find : Except Unit (List ConnectBtnEnv)

/-- Observable outcome of connect_with_profile: the returned boolean
and whether find_and_click_send_button was ever invoked. -/
structure ConnectTrace where
  result : Bool
  send_attempted : Bool

/-- The for-loop of connect_with_profile over the connect-button
candidates.  A failed connect click, a timeout waiting for the
Add-a-note buttons, a failure to click any Add-a-note button, or the
failure of every note-textarea selector each continue with the next
candidate.  Once a textarea is found the send search runs: its success
returns true, its failure returns false immediately (no further
candidates are tried).  The generated note (always produced,
generate_connection_note is total) is injected before the send step. -/
def connectLoop (profile : Profile) : List ConnectBtnEnv → ConnectTrace
  | [] => ⟨false, false⟩
  | b :: rest =>
    if (click_button_safely b.clicks).result then
      match b.dialog with
      | .error _ => connectLoop profile rest
      | .ok d =>
        if try_note_buttons d.note_buttons then
          let _note := generate_connection_note profile d.backend
          if d.textarea_selectors.any (fun s => s) then
            if find_and_click_send_button d.send_selectors then ⟨true, true⟩
            else ⟨false, true⟩
          else connectLoop profile rest
        else connectLoop profile rest
    else connectLoop profile rest

/-- LinkedInConnector.connect_with_profile.  A navigation failure or a
raising connect-button search is caught by the outer except and yields
false; an empty candidate list falls through the loop to the final
return False.  Total: every exception path is a value, nothing
propagates to the caller. -/
def connect_with_profile (env : ConnectEnv) (profile : Profile) : ConnectTrace :=
  if env.nav_ok then
    match env.connect_find with
    | .error _ => ⟨false, false⟩
    | .ok btns => connectLoop profile btns
  else ⟨false, false⟩

/-- Outcome of setup_driver: ok, or an exception raised before the
Chrome driver was assigned to self.driver (nothing to tear down), or
an exception raised after the assignment. -/
inductive SetupOutcome
  | ok
  | failNoDriver
  | failWithDriver

/-- Environment of one LinkedInConnector.run call: the setup_driver
outcome, the boolean returned by login (login catches its own
exceptions and returns a boolean, it never raises), the outcome of
opening and JSON-parsing the profile file, the boolean returned by
connect_with_profile per url and profile (total, never raises), and
the stream of values produced by random.uniform(20, 40). -/
structure RunEnv where
  setup : SetupOutcome
  login_ok : Bool
  file_load : Except Unit (List Profile)
  connect_result : List Char → Profile → Bool
  rand : Nat → Rat

/-- Observable trace of LinkedInConnector.run: whether the driver was
created, whether driver.quit() ran in the finally block, the
connect_with_profile invocations in order, the per-profile printed
outcomes (profile name paired with the success boolean) in order, the
inter-profile sleep durations in order, and the Python return value of
run, which is always None. -/
structure RunTrace where
  driver_created : Bool
  torn_down : Bool
  connect_calls : List (List Char × Profile)
  outcomes : List (List Char × Bool)
  pauses : List Rat
  ret : Option (List (List Char × Bool))

/-- The for-loop of run over the profiles, threading the index into the
random stream.  Each iteration subscripts name (raising KeyError to
the outer except when absent, which aborts the loop), subscripts url
likewise, invokes connect, records the printed outcome, and then
always sleeps a random.uniform(20, 40) duration, including after the
final profile.  The boolean component is false when the loop was
aborted by an exception. -/
def runLoop (c : List Char → Profile → Bool) (r : Nat → Rat) :
    List Profile → Nat → List (List Char × Profile) × List (List Char × Bool) × List Rat × Bool
  | [], _ => ([], [], [], true)
  | p :: rest, i =>
    match p.name with
    | none => ([], [], [], false)
    | some nm =>
      match p.url with
      | none => ([], [], [], false)
      | some u =>
        let res := c u p
        let t := runLoop c r rest (i + 1)
        ((u, p) :: t.1, (nm, res) :: t.2.1, r i :: t.2.2.1, t.2.2.2)

/-- LinkedInConnector.run.  setup_driver runs inside the try block, so
a setup failure reaches the finally block, which quits the driver only
when self.driver was assigned.  A false login returns early (after the
finally); a failing file load is caught by the outer except; otherwise
the profile loop runs, itself guarded by the outer except.  Every path
on which the driver was created tears it down.  run returns None. -/
def run (env : RunEnv) : RunTrace :=
  match env.setup with
  | .failNoDriver => ⟨false, false, [], [], [], none⟩
  | .failWithDriver => ⟨true, true, [], [], [], none⟩
  | .ok =>
    if env.login_ok then
      match env.file_load with
      | .error _ => ⟨true, true, [], [], [], none⟩
      | .ok profiles =>
        let t := runLoop env.connect_result env.rand profiles 0
        ⟨true, true, t.1, t.2.1, t.2.2.1, none⟩
    else ⟨true, true, [], [], [], none⟩

theorem takeWhile_append_all {p : Char → Bool} {xs : List Char} (ys : List Char)
    (h : ∀ x ∈ xs, p x = true) : (xs ++ ys).takeWhile p = xs ++ ys.takeWhile p := by
  induction xs with
  | nil => simp
  | cons a l ih =>
    have ha : p a = true := h a (List.mem_cons_self a l)
    simp only [List.cons_append, List.takeWhile_cons, ha, if_true]
    rw [ih (fun x hx => h x (List.mem_cons_of_mem a hx))]

theorem dropWhile_append_all {p : Char → Bool} {xs : List Char} (ys : List Char)
    (h : ∀ x ∈ xs, p x = true) : (xs ++ ys).dropWhile p = ys.dropWhile p := by
  induction xs with
  | nil => simp
  | cons a l ih =>
    have ha : p a = true := h a (List.mem_cons_self a l)
    simp only [List.cons_append, List.dropWhile_cons, ha, if_true]
    exact ih (fun x hx => h x (List.mem_cons_of_mem a hx))

theorem takeWhile_all_eq_self {p : Char → Bool} {xs : List Char}
    (h : ∀ x ∈ xs, p x = true) : xs.takeWhile p = xs := by
  induction xs with
  | nil => rfl
  | cons a l ih =>
    have ha : p a = true := h a (List.mem_cons_self a l)
    simp only [List.takeWhile_cons, ha, if_true]
    rw [ih (fun x hx => h x (List.mem_cons_of_mem a hx))]

theorem dropWhile_all_eq_nil {p : Char → Bool} {xs : List Char}
    (h : ∀ x ∈ xs, p x = true) : xs.dropWhile p = [] := by
  induction xs with
  | nil => rfl
  | cons a l ih =>
    have ha : p a = true := h a (List.mem_cons_self a l)
    simp only [List.dropWhile_cons, ha, if_true]
    exact ih (fun x hx => h x (List.mem_cons_of_mem a hx))

theorem pyWords_nil : pyWords [] = [] := rfl

theorem pyWords_cons (c : Char) (cs : List Char) :
    pyWords (c :: cs) =
      if isPySpace c then pyWords cs
      else match cs, pyWords cs with
        | [], _ => [[c]]
        | _ :: _, [] => [[c]]
        | d :: _, w :: ws => if isPySpace d then [c] :: w :: ws else (c :: w) :: ws := rfl

theorem pyWords_cons_space {c : Char} {cs : List Char} (h : isPySpace c = true) :
    pyWords (c :: cs) = pyWords cs := by
  rw [pyWords_cons, h]
  rfl

theorem pyWords_cons_word {cs : List Char} {c : Char} (h : isPySpace c = false) :
    pyWords (c :: cs) =
      (c :: cs.takeWhile (fun x => !isPySpace x)) ::
        pyWords (cs.dropWhile (fun x => !isPySpace x)) := by
  induction cs generalizing c with
  | nil => simp [pyWords_cons, h, pyWords_nil]
  | cons d rest ih =>
    rw [pyWords_cons, h]
    cases hd : isPySpace d with
    | true =>
      rw [pyWords_cons_space hd]
      rcases hpw : pyWords rest with _ | ⟨w, ws⟩ <;>
        simp [hd, hpw, List.takeWhile_cons, List.dropWhile_cons, pyWords_cons_space]
    | false =>
      rw [ih (c := d) hd]
      simp [hd, List.takeWhile_cons, List.dropWhile_cons]

theorem length_dropWhile_le' (p : Char → Bool) (l : List Char) :
    (l.dropWhile p).length ≤ l.length := (List.dropWhile_sublist p).length_le

theorem pyWords_sound_aux :
    ∀ n (l : List Char), l.length ≤ n → ∀ w ∈ pyWords l,
      w ≠ [] ∧ ∀ c ∈ w, isPySpace c = false := by
  intro n
  induction n with
  | zero =>
    intro l hl w hw
    have : l = [] := List.length_eq_zero.mp (Nat.le_zero.mp hl)
    subst this
    simp [pyWords_nil] at hw
  | succ n ih =>
    intro l hl w hw
    cases l with
    | nil => simp [pyWords_nil] at hw
    | cons c cs =>
      cases hc : isPySpace c with
      | true =>
        rw [pyWords_cons_space hc] at hw
        refine ih cs ?_ w hw
        simp only [List.length_cons] at hl
        omega
      | false =>
        rw [pyWords_cons_word hc] at hw
        rcases List.mem_cons.mp hw with hw | hw
        · subst hw
          refine ⟨by simp, ?_⟩
          intro x hx
          rcases List.mem_cons.mp hx with rfl | hx
          · exact hc
          · have := List.mem_takeWhile_imp hx
            simpa using this
        · refine ih _ ?_ w hw
          have h1 := length_dropWhile_le' (fun x => !isPySpace x) cs
          simp only [List.length_cons] at hl
          omega

theorem pyWords_sound {l w : List Char} (hw : w ∈ pyWords l) :
    w ≠ [] ∧ ∀ c ∈ w, isPySpace c = false :=
  pyWords_sound_aux l.length l le_rfl w hw

theorem pyWords_mem_aux :
    ∀ n (l : List Char), l.length ≤ n → ∀ w ∈ pyWords l, ∀ c ∈ w, c ∈ l := by
  intro n
  induction n with
  | zero =>
    intro l hl w hw
    have : l = [] := List.length_eq_zero.mp (Nat.le_zero.mp hl)
    subst this
    simp [pyWords_nil] at hw
  | succ n ih =>
    intro l hl w hw x hx
    cases l with
    | nil => simp [pyWords_nil] at hw
    | cons c cs =>
      cases hc : isPySpace c with
      | true =>
        rw [pyWords_cons_space hc] at hw
        have : x ∈ cs := by
          refine ih cs ?_ w hw x hx
          simp only [List.length_cons] at hl
          omega
        exact List.mem_cons_of_mem c this
      | false =>
        rw [pyWords_cons_word hc] at hw
        rcases List.mem_cons.mp hw with hw | hw
        · subst hw
          rcases List.mem_cons.mp hx with rfl | hx
          · exact List.mem_cons_self _ _
          · exact List.mem_cons_of_mem c ((List.takeWhile_sublist _).subset hx)
        · have : x ∈ cs.dropWhile (fun y => !isPySpace y) := by
            refine ih _ ?_ w hw x hx
            have h1 := length_dropWhile_le' (fun y => !isPySpace y) cs
            simp only [List.length_cons] at hl
            omega
          exact List.mem_cons_of_mem c ((List.dropWhile_sublist _).subset this)

theorem pyWords_mem {l w : List Char} (hw : w ∈ pyWords l) {c : Char} (hc : c ∈ w) :
    c ∈ l :=
  pyWords_mem_aux l.length l le_rfl w hw c hc

theorem joinWords_cons_cons (w w2 : List Char) (rest : List (List Char)) :
    joinWords (w :: w2 :: rest) = w ++ ' ' :: joinWords (w2 :: rest) := rfl

theorem mem_joinWords : ∀ {ws : List (List Char)} {c : Char}, c ∈ joinWords ws →
    c = ' ' ∨ ∃ w ∈ ws, c ∈ w := by
  intro ws
  induction ws with
  | nil => intro c h; simp [joinWords] at h
  | cons w ws ih =>
    intro c h
    cases ws with
    | nil =>
      have hw : c ∈ w := by simpa [joinWords] using h
      exact Or.inr ⟨w, List.mem_cons_self _ _, hw⟩
    | cons w2 rest =>
      rw [joinWords_cons_cons] at h
      rcases List.mem_append.mp h with h | h
      · exact Or.inr ⟨w, List.mem_cons_self _ _, h⟩
      · rcases List.mem_cons.mp h with rfl | h
        · exact Or.inl rfl
        · rcases ih h with h | ⟨w', hw', hc⟩
          · exact Or.inl h
          · exact Or.inr ⟨w', List.mem_cons_of_mem _ hw', hc⟩

theorem joinWords_head_nonspace {ws : List (List Char)}
    (hws : ∀ w ∈ ws, w ≠ [] ∧ ∀ c ∈ w, isPySpace c = false) :
    ∀ c, (joinWords ws).head? = some c → isPySpace c = false := by
  intro c hc
  cases ws with
  | nil => simp [joinWords] at hc
  | cons w ws =>
    have hw := hws w (List.mem_cons_self _ _)
    rcases w with _ | ⟨a, t⟩
    · exact absurd rfl hw.1
    have hac : a = c := by
      cases ws with
      | nil => simpa [joinWords] using hc
      | cons w2 rest =>
        rw [joinWords_cons_cons, List.cons_append] at hc
        simpa using hc
    subst hac
    exact hw.2 a (List.mem_cons_self _ _)

theorem joinWords_append_single_cons (m : List Char) :
    ∀ (ms : List (List Char)) (x : List Char),
      joinWords ((m :: ms) ++ [x]) = joinWords (m :: ms) ++ ' ' :: x := by
  intro ms
  induction ms generalizing m with
  | nil => intro x; simp [joinWords]
  | cons m2 t ih =>
    intro x
    have h1 : (m :: m2 :: t) ++ [x] = m :: m2 :: (t ++ [x]) := by simp
    rw [h1, joinWords_cons_cons, joinWords_cons_cons]
    have h2 : m2 :: (t ++ [x]) = (m2 :: t) ++ [x] := by simp
    rw [h2, ih (m := m2) x]
    simp

theorem joinWords_reverse : ∀ ws : List (List Char),
    (joinWords ws).reverse = joinWords ((ws.map List.reverse).reverse) := by
  intro ws
  induction ws with
  | nil => simp [joinWords]
  | cons w ws ih =>
    cases ws with
    | nil => simp [joinWords]
    | cons w2 rest =>
      rw [joinWords_cons_cons]
      have hmap : (((w :: w2 :: rest).map List.reverse).reverse)
          = ((w2 :: rest).map List.reverse).reverse ++ [w.reverse] := by simp
      rw [hmap]
      rcases hM : ((w2 :: rest).map List.reverse).reverse with _ | ⟨m, ms⟩
      · simp at hM
      · rw [joinWords_append_single_cons, ← hM, ← ih]
        simp

theorem joinWords_getLast_nonspace {ws : List (List Char)}
    (hws : ∀ w ∈ ws, w ≠ [] ∧ ∀ c ∈ w, isPySpace c = false) :
    ∀ c, (joinWords ws).getLast? = some c → isPySpace c = false := by
  intro c hc
  rw [List.getLast?_eq_head?_reverse, joinWords_reverse] at hc
  refine joinWords_head_nonspace ?_ c hc
  intro w hw
  rw [List.mem_reverse] at hw
  rcases List.mem_map.mp hw with ⟨w0, hw0, rfl⟩
  refine ⟨by simpa using (hws w0 hw0).1, ?_⟩
  intro x hx
  exact (hws w0 hw0).2 x (List.mem_reverse.mp hx)

theorem pyWords_joinWords : ∀ ws : List (List Char),
    (∀ w ∈ ws, w ≠ [] ∧ ∀ c ∈ w, isPySpace c = false) →
    pyWords (joinWords ws) = ws := by
  intro ws
  induction ws with
  | nil => intro _; simp [joinWords, pyWords_nil]
  | cons w ws ih =>
    intro h
    have hw := h w (List.mem_cons_self _ _)
    rcases w with _ | ⟨a, t⟩
    · exact absurd rfl hw.1
    have ha : isPySpace a = false := hw.2 a (List.mem_cons_self _ _)
    have ht : ∀ x ∈ t, (!isPySpace x) = true := by
      intro x hx
      simp [hw.2 x (List.mem_cons_of_mem _ hx)]
    cases ws with
    | nil =>
      have hj : joinWords [a :: t] = a :: t := rfl
      rw [hj, pyWords_cons_word ha, takeWhile_all_eq_self ht, dropWhile_all_eq_nil ht,
        pyWords_nil]
    | cons w2 rest =>
      have hih := ih (fun w' hw' => h w' (List.mem_cons_of_mem _ hw'))
      have hj : joinWords ((a :: t) :: w2 :: rest)
          = a :: (t ++ ' ' :: joinWords (w2 :: rest)) := by
        rw [joinWords_cons_cons]
        simp
      have hsp : isPySpace ' ' = true := by decide
      rw [hj, pyWords_cons_word ha, takeWhile_append_all _ ht, dropWhile_append_all _ ht]
      simp only [List.takeWhile_cons, List.dropWhile_cons, hsp, Bool.not_true,
        Bool.false_eq_true, if_false]
      rw [pyWords_cons_space hsp, hih]
      simp

theorem chain_all_nonspace {l : List Char} (h : ∀ x ∈ l, isPySpace x = false) :
    List.Chain' (fun a b => isPySpace a = false ∨ isPySpace b = false) l := by
  induction l with
  | nil => simp
  | cons a t ih =>
    cases t with
    | nil => simp
    | cons b t2 =>
      rw [List.chain'_cons]
      refine ⟨Or.inl (h a (List.mem_cons_self _ _)), ?_⟩
      exact ih (fun x hx => h x (List.mem_cons_of_mem _ hx))

theorem joinWords_chain {ws : List (List Char)}
    (hws : ∀ w ∈ ws, w ≠ [] ∧ ∀ c ∈ w, isPySpace c = false) :
    List.Chain' (fun a b => isPySpace a = false ∨ isPySpace b = false) (joinWords ws) := by
  induction ws with
  | nil => simp [joinWords]
  | cons w ws ih =>
    cases ws with
    | nil =>
      have : joinWords [w] = w := rfl
      rw [this]
      exact chain_all_nonspace (hws w (List.mem_cons_self _ _)).2
    | cons w2 rest =>
      have htail : ∀ w' ∈ w2 :: rest, w' ≠ [] ∧ ∀ c ∈ w', isPySpace c = false :=
        fun w' hw' => hws w' (List.mem_cons_of_mem _ hw')
      rw [joinWords_cons_cons, List.chain'_append]
      refine ⟨chain_all_nonspace (hws w (List.mem_cons_self _ _)).2, ?_, ?_⟩
      · rcases hJ : joinWords (w2 :: rest) with _ | ⟨j, jt⟩
        · simp
        · rw [List.chain'_cons]
          constructor
          · refine Or.inr (joinWords_head_nonspace htail j ?_)
            rw [hJ]
            rfl
          · rw [← hJ]
            exact ih htail
      · intro x hx y _
        left
        rcases List.mem_getLast?_eq_getLast hx with ⟨h1, rfl⟩
        exact (hws w (List.mem_cons_self _ _)).2 _ (List.getLast_mem h1)

theorem clean_text_eq (l : List Char) :
    clean_text l = joinWords (pyWords (l.filter isBMP)) := rfl

theorem clean_text_bmp {l : List Char} : ∀ c ∈ clean_text l, isBMP c = true := by
  intro c hc
  rw [clean_text_eq] at hc
  rcases mem_joinWords hc with rfl | ⟨w, hw, hcw⟩
  · decide
  · exact (List.mem_filter.mp (pyWords_mem hw hcw)).2

theorem clean_text_space_char {l : List Char} :
    ∀ c ∈ clean_text l, isPySpace c = true → c = ' ' := by
  intro c hc hsp
  rw [clean_text_eq] at hc
  rcases mem_joinWords hc with rfl | ⟨w, hw, hcw⟩
  · rfl
  · rw [(pyWords_sound hw).2 c hcw] at hsp
    exact absurd hsp (by simp)

theorem dropWhile_head_nonspace {l : List Char}
    (h : ∀ c, l.head? = some c → isPySpace c = false) : l.dropWhile isPySpace = l := by
  cases l with
  | nil => rfl
  | cons a t =>
    have := h a rfl
    rw [List.dropWhile_cons]
    simp [this]

theorem clean_text_strip_noop (l : List Char) : pyStrip (clean_text l) = clean_text l := by
  have hgood : ∀ w ∈ pyWords (l.filter isBMP), w ≠ [] ∧ ∀ c ∈ w, isPySpace c = false :=
    fun w hw => pyWords_sound hw
  show ((((clean_text l).dropWhile isPySpace).reverse.dropWhile isPySpace)).reverse = _
  rw [show (clean_text l).dropWhile isPySpace = clean_text l from
      dropWhile_head_nonspace (by rw [clean_text_eq]; exact joinWords_head_nonspace hgood)]
  rw [show (clean_text l).reverse.dropWhile isPySpace = (clean_text l).reverse from
      dropWhile_head_nonspace ?_]
  · exact List.reverse_reverse _
  · intro c hc
    rw [List.head?_reverse, clean_text_eq] at hc
    exact joinWords_getLast_nonspace hgood c hc

theorem clean_text_words (l : List Char) :
    pyWords (clean_text l) = pyWords (l.filter isBMP) := by
  rw [clean_text_eq]
  exact pyWords_joinWords _ (fun w hw => pyWords_sound hw)

theorem clean_text_idem (l : List Char) : clean_text (clean_text l) = clean_text l := by
  have hfix : (clean_text l).filter isBMP = clean_text l :=
    List.filter_eq_self.mpr (fun a ha => clean_text_bmp a ha)
  rw [clean_text_eq (clean_text l), hfix, clean_text_words, ← clean_text_eq]

/-- C2: the sanitizer clean_text removes every code point outside the
Basic Multilingual Plane, the only whitespace in its output is the
single space character and no two adjacent output characters are both
whitespace (internal whitespace runs are collapsed to a single space),
stripping its output is a no-op (leading and trailing whitespace runs
are REMOVED rather than collapsed, the correction this claim needs),
the whitespace-separated words of the output are exactly those of the
BMP-filtered input, and the sanitizer is idempotent. -/
theorem c2_clean_text_amended (l : List Char) :
    (∀ c ∈ clean_text l, isBMP c = true) ∧
    (∀ c ∈ clean_text l, isPySpace c = true → c = ' ') ∧
    List.Chain' (fun a b => isPySpace a = false ∨ isPySpace b = false) (clean_text l) ∧
    pyStrip (clean_text l) = clean_text l ∧
    pyWords (clean_text l) = pyWords (l.filter isBMP) ∧
    clean_text (clean_text l) = clean_text l := by
  refine ⟨clean_text_bmp, clean_text_space_char, ?_, clean_text_strip_noop l,
    clean_text_words l, clean_text_idem l⟩
  rw [clean_text_eq]
  exact joinWords_chain (fun w hw => pyWords_sound hw)

/-- C2 counterexample: on the input consisting of a space followed by
the letter a, the claimed per-run collapsing (collapseRunsSpec, the
literal reading of the claim under which EVERY whitespace run of the
input, including a leading one, becomes a single space of the output)
would produce a space followed by a; clean_text instead deletes the
leading run and returns just the letter a.  So the claim as stated is
false at this input. -/
theorem c2_counterexample :
    clean_text [' ', 'a'] = ['a'] ∧
    collapseRunsSpec ([' ', 'a'].filter isBMP) = [' ', 'a'] ∧
    clean_text [' ', 'a'] ≠ collapseRunsSpec ([' ', 'a'].filter isBMP) := by
  refine ⟨by decide, by decide, by decide⟩

/-- C2 witness: the amended theorem applied at a concrete input, with
its embedded hypotheses discharged there. -/
theorem c2_witness :
    clean_text (clean_text [' ', 'a', ' ', ' ', 'b']) = clean_text [' ', 'a', ' ', ' ', 'b'] ∧
    isBMP 'a' = true :=
  ⟨(c2_clean_text_amended [' ', 'a', ' ', ' ', 'b']).2.2.2.2.2,
   (c2_clean_text_amended [' ', 'a', ' ', ' ', 'b']).1 'a' (by decide)⟩

set_option linter.unusedVariables false in
/-- C3 amended: every note returned by generate_connection_note has
length at most 200, whatever the backend does; and for a 250-character
BMP response WHOSE SANITIZED FORM STILL EXCEEDS 200 CHARACTERS (the
correction: a 250-character response whose whitespace runs collapse to
200 characters or fewer produces no warning) the returned note is
exactly the first 200 characters of the sanitized response and the
length-exceeded warning is printed. -/
theorem c3_generate_note_amended (profile : Profile) (post : PostResult) (raw : List Char)
    (hname : profile.name.isSome) (hpos : profile.current_position.isSome)
    (hlen : raw.length = 250) (hbmp : ∀ c ∈ raw, isBMP c = true)
    (hover : 200 < (clean_text (pyStrip raw)).length) :
    (generate_connection_note profile post).note.length ≤ 200 ∧
    (generate_connection_note profile (.response 200 (.ok (some raw)))).note
        = (clean_text (pyStrip raw)).take 200 ∧
    (generate_connection_note profile (.response 200 (.ok (some raw)))).warned = true := by
  obtain ⟨pn, pu, pp⟩ := profile
  rcases pn with _ | nm
  · simp at hname
  rcases pp with _ | ps
  · simp at hpos
  have hfb : fallback_note.length ≤ 200 := by decide
  refine ⟨?_, ?_, ?_⟩
  · rcases post with ⟨status, json⟩ | _ | _
    · by_cases hs : status = 200
      · subst hs
        rcases json with e | field
        · exact hfb
        · show ((clean_text (pyStrip (field.getD []))).take 200).length ≤ 200
          rw [List.length_take]
          omega
      · simp only [generate_connection_note]
        rw [if_neg hs]
        exact hfb
    · exact hfb
    · exact hfb
  · rfl
  · show decide (200 < (clean_text (pyStrip raw)).length) = true
    exact decide_eq_true hover

set_option maxRecDepth 16000 in
/-- C3 counterexample: a 250-character BMP response consisting entirely
of spaces sanitizes to the empty string, so no length-exceeded warning
is printed, refuting the claim that every 250-character BMP response
makes the warning be emitted. -/
theorem c3_counterexample :
    (List.replicate 250 ' ').length = 250 ∧
    (∀ c ∈ List.replicate 250 ' ', isBMP c = true) ∧
    (generate_connection_note ⟨some ['J'], some ['u'], some ['E']⟩
        (.response 200 (.ok (some (List.replicate 250 ' '))))).warned = false := by
  refine ⟨by decide, by decide, by decide⟩

set_option maxRecDepth 16000 in
/-- C3 witness: the amended theorem applied to the 250-character
response of letters a, which does sanitize to 250 characters. -/
theorem c3_witness :
    (generate_connection_note ⟨some ['J'], some ['u'], some ['E']⟩
        (.response 200 (.ok (some (List.replicate 250 'a'))))).note
      = (clean_text (pyStrip (List.replicate 250 'a'))).take 200 ∧
    (generate_connection_note ⟨some ['J'], some ['u'], some ['E']⟩
        (.response 200 (.ok (some (List.replicate 250 'a'))))).warned = true :=
  ⟨(c3_generate_note_amended ⟨some ['J'], some ['u'], some ['E']⟩ .connError
      (List.replicate 250 'a') (by decide) (by decide) (by decide) (by decide)
      (by decide)).2.1,
   (c3_generate_note_amended ⟨some ['J'], some ['u'], some ['E']⟩ .connError
      (List.replicate 250 'a') (by decide) (by decide) (by decide) (by decide)
      (by decide)).2.2⟩

/-- The failure conditions of the generation backend named by claim C4:
a non-success HTTP status, a body whose JSON parse raises, a network
connection failure, or any other raised exception. -/
def backend_failure : PostResult → Prop
  | .response status json => status ≠ 200 ∨ json = .error ()
  | .connError => True
  | .otherExc => True

/-- C4: whenever the generation backend fails in any of the named ways,
generate_connection_note returns exactly the fixed fallback note.  The
function is total (see its definition), so no exception reaches the
caller. -/
theorem c4_generate_fallback (profile : Profile) (post : PostResult)
    (h : backend_failure post) :
    (generate_connection_note profile post).note = fallback_note := by
  obtain ⟨pn, pu, pp⟩ := profile
  rcases pn with _ | nm
  · rcases post with ⟨status, json⟩ | _ | _ <;> rfl
  rcases pp with _ | ps
  · rcases post with ⟨status, json⟩ | _ | _ <;> rfl
  rcases post with ⟨status, json⟩ | _ | _
  · rcases h with h | h
    · simp only [generate_connection_note]
      rw [if_neg h]
    · subst h
      by_cases hs : status = 200
      · subst hs
        rfl
      · simp only [generate_connection_note]
        rw [if_neg hs]
  · rfl
  · rfl

/-- C4 witness: the theorem applied to a connection failure. -/
theorem c4_witness :
    (generate_connection_note ⟨some ['J'], some ['u'], some ['E']⟩ .connError).note
      = fallback_note :=
  c4_generate_fallback ⟨some ['J'], some ['u'], some ['E']⟩ .connError trivial

/-- C9: when the profile dictionary lacks the name key or the
current_position key, the KeyError raised while building the prompt is
caught inside generate_connection_note before any HTTP request is
issued, so the fallback note is returned (whatever the backend would
have answered, healthy included) and no request is made; the call never
raises. -/
theorem c9_missing_key_fallback (profile : Profile) (post : PostResult)
    (h : profile.name = none ∨ profile.current_position = none) :
    (generate_connection_note profile post).note = fallback_note ∧
    (generate_connection_note profile post).requested = false := by
  obtain ⟨pn, pu, pp⟩ := profile
  rcases h with h | h
  · cases h
    exact ⟨rfl, rfl⟩
  · cases h
    rcases pn with _ | nm <;> exact ⟨rfl, rfl⟩

/-- C9 witness: a healthy backend (HTTP 200 with a long response) and a
profile missing current_position still yield the fallback note and no
request. -/
theorem c9_witness :
    (generate_connection_note ⟨some ['J'], some ['u'], none⟩
        (.response 200 (.ok (some ['o', 'k'])))).note = fallback_note ∧
    (generate_connection_note ⟨some ['J'], some ['u'], none⟩
        (.response 200 (.ok (some ['o', 'k'])))).requested = false :=
  c9_missing_key_fallback ⟨some ['J'], some ['u'], none⟩
    (.response 200 (.ok (some ['o', 'k']))) (Or.inr rfl)

/-- C10: the standalone client generate_text returns the empty string
on a non-200 status, on a connection failure, on a JSON parse failure
and on any other exception (it never raises: the embedding is total);
on HTTP 200 it returns the response field stripped of surrounding
whitespace, and the empty string when the field is absent. -/
theorem c10_generate_text_contract :
    (∀ status json, status ≠ 200 → generate_text (.response status json) = []) ∧
    generate_text .connError = [] ∧
    generate_text .otherExc = [] ∧
    generate_text (.response 200 (.error ())) = [] ∧
    (∀ f, generate_text (.response 200 (.ok (some f))) = pyStrip f) ∧
    generate_text (.response 200 (.ok none)) = [] := by
  refine ⟨?_, rfl, rfl, rfl, fun f => rfl, rfl⟩
  intro status json h
  simp only [generate_text]
  rw [if_neg h]

/-- C10 witness: the contract applied at status 404. -/
theorem c10_witness : generate_text (.response 404 (.ok (some ['x']))) = [] :=
  c10_generate_text_contract.1 404 (.ok (some ['x'])) (by decide)

/-- C6 counterexample: an element that is not visible-and-enabled on
the first attempt does NOT make click_button_safely fail immediately:
the visibility check is repeated inside the same call, and if the
element is clickable on the second attempt the call clicks it and
returns true.  Likewise a never-clickable element is checked three
times, not once.  This refutes the claimed fail-immediately-no-retry
behaviour. -/
theorem c6_counterexample :
    (click_button_safely
        (fun i => if i = 0 then ClickAttempt.notClickable else ClickAttempt.success)).result
      = true ∧
    (click_button_safely (fun _ => ClickAttempt.notClickable)).attempts = 3 ∧
    (click_button_safely (fun _ => ClickAttempt.notClickable)).result = false := by
  refine ⟨rfl, rfl, rfl⟩

/-- C6 amended: when the element is never visible-and-enabled the call
returns false after 3 visibility checks with no backoff sleep (the
check is retried within the call, not failed immediately); when every
attempt raises an exception the call retries up to 3 attempts total
with a fixed 2-second backoff between consecutive attempts (2 sleeps)
and returns false once all attempts are exhausted; a first attempt
that clicks successfully returns true at once. -/
theorem c6_click_amended (b : Nat → ClickAttempt) :
    ((∀ i, i < 3 → b i = ClickAttempt.notClickable) →
        click_button_safely b = ⟨false, 3, 0⟩) ∧
    ((∀ i, i < 3 → b i = ClickAttempt.exc) →
        click_button_safely b = ⟨false, 3, 2⟩) ∧
    (b 0 = ClickAttempt.success → click_button_safely b = ⟨true, 1, 0⟩) := by
  refine ⟨?_, ?_, ?_⟩
  · intro h
    show clickLoop b [0, 1, 2] = _
    simp [clickLoop, h 0 (by omega), h 1 (by omega), h 2 (by omega)]
  · intro h
    show clickLoop b [0, 1, 2] = _
    simp [clickLoop, h 0 (by omega), h 1 (by omega), h 2 (by omega), List.isEmpty]
  · intro h
    show clickLoop b [0, 1, 2] = _
    simp [clickLoop, h]

/-- C6 witness: the amended theorem applied to an always-raising
element. -/
theorem c6_witness : click_button_safely (fun _ => ClickAttempt.exc) = ⟨false, 3, 2⟩ :=
  (c6_click_amended (fun _ => ClickAttempt.exc)).2.1 (fun _ _ => rfl)

theorem connectLoop_no_textarea (profile : Profile) :
    ∀ btns : List ConnectBtnEnv,
      (∀ b ∈ btns, ∀ d, b.dialog = .ok d → ∀ s ∈ d.textarea_selectors, s = false) →
      connectLoop profile btns = ⟨false, false⟩ := by
  intro btns
  induction btns with
  | nil => intro _; rfl
  | cons b rest ih =>
    intro h
    have hrest := fun b' hb' => h b' (List.mem_cons_of_mem _ hb')
    cases hclick : (click_button_safely b.clicks).result with
    | false => simp [connectLoop, hclick, ih hrest]
    | true =>
      rcases hd : b.dialog with e | d
      · simp [connectLoop, hclick, hd, ih hrest]
      · have hsel : d.textarea_selectors.any (fun s => s) = false := by
          rw [List.any_eq_false]
          intro s hs
          simp [h b (List.mem_cons_self _ _) d hd s hs]
        cases hnote : try_note_buttons d.note_buttons with
        | false => simp [connectLoop, hclick, hd, hnote, ih hrest]
        | true => simp [connectLoop, hclick, hd, hnote, hsel, ih hrest]

/-- C8: when no note-textarea selector succeeds for any connect-button
candidate, connect_with_profile returns false and the send-button
search is never invoked; moreover a navigation failure or a raising
connect-button search (the exception paths into the outer except) also
yield false.  The embedding is a total function: every exception at
every step is converted to a value, never propagated. -/
theorem c8_connect_no_textarea (env : ConnectEnv) (profile : Profile)
    (h : ∀ btns, env.connect_find = .ok btns → ∀ b ∈ btns, ∀ d,
           b.dialog = .ok d → ∀ s ∈ d.textarea_selectors, s = false) :
    (connect_with_profile env profile).result = false ∧
    (connect_with_profile env profile).send_attempted = false ∧
    (∀ (e2 : ConnectEnv) (p2 : Profile), e2.nav_ok = false →
        connect_with_profile e2 p2 = ⟨false, false⟩) ∧
    (∀ (p2 : Profile) (nav : Bool),
        connect_with_profile ⟨nav, .error ()⟩ p2 = ⟨false, false⟩) := by
  refine ⟨?_, ?_, ?_, ?_⟩
  · cases hnav : env.nav_ok with
    | false => simp [connect_with_profile, hnav]
    | true =>
      rcases hf : env.connect_find with e | btns
      · simp [connect_with_profile, hnav, hf]
      · simp [connect_with_profile, hnav, hf, connectLoop_no_textarea profile btns (h btns hf)]
  · cases hnav : env.nav_ok with
    | false => simp [connect_with_profile, hnav]
    | true =>
      rcases hf : env.connect_find with e | btns
      · simp [connect_with_profile, hnav, hf]
      · simp [connect_with_profile, hnav, hf, connectLoop_no_textarea profile btns (h btns hf)]
  · intro e2 p2 hnav
    simp [connect_with_profile, hnav]
  · intro p2 nav
    cases nav <;> simp [connect_with_profile]

/-- C8 witness: a concrete page with one connect button whose dialog
offers two note-textarea selectors that both fail. -/
theorem c8_witness :
    (connect_with_profile
        ⟨true, .ok [⟨fun _ => ClickAttempt.success,
                     .ok ⟨[⟨.ok "note".data, fun _ => ClickAttempt.success⟩],
                          [false, false], PostResult.connError, []⟩⟩]⟩
        ⟨some ['J'], some ['u'], some ['E']⟩).result = false ∧
    (connect_with_profile
        ⟨true, .ok [⟨fun _ => ClickAttempt.success,
                     .ok ⟨[⟨.ok "note".data, fun _ => ClickAttempt.success⟩],
                          [false, false], PostResult.connError, []⟩⟩]⟩
        ⟨some ['J'], some ['u'], some ['E']⟩).send_attempted = false := by
  have h := c8_connect_no_textarea
      ⟨true, .ok [⟨fun _ => ClickAttempt.success,
                   .ok ⟨[⟨.ok "note".data, fun _ => ClickAttempt.success⟩],
                        [false, false], PostResult.connError, []⟩⟩]⟩
      ⟨some ['J'], some ['u'], some ['E']⟩ ?_
  · exact ⟨h.1, h.2.1⟩
  · intro btns hb b hbm d hd s hs
    cases hb
    rcases List.mem_singleton.mp hbm
    cases hd
    rcases List.mem_cons.mp hs with rfl | hs2
    · rfl
    · rcases List.mem_singleton.mp hs2
      rfl

theorem runLoop_wellformed (c : List Char → Profile → Bool) (r : Nat → Rat) :
    ∀ (profiles : List Profile) (i : Nat),
      (∀ p ∈ profiles, p.name.isSome ∧ p.url.isSome) →
      runLoop c r profiles i =
        (profiles.map (fun p => (p.url.getD [], p)),
         profiles.map (fun p => (p.name.getD [], c (p.url.getD []) p)),
         (List.range profiles.length).map (fun k => r (i + k)),
         true) := by
  intro profiles
  induction profiles with
  | nil => intro i _; rfl
  | cons p rest ih =>
    intro i h
    have hp := h p (List.mem_cons_self _ _)
    rcases hn : p.name with _ | nm
    · rw [hn] at hp; simp at hp
    rcases hu : p.url with _ | u
    · rw [hu] at hp; simp at hp
    have hih := ih (i + 1) (fun q hq => h q (List.mem_cons_of_mem _ hq))
    show (match p.name with
      | none => ([], [], [], false)
      | some nm =>
        match p.url with
        | none => ([], [], [], false)
        | some u =>
          let res := c u p
          let t := runLoop c r rest (i + 1)
          ((u, p) :: t.1, (nm, res) :: t.2.1, r i :: t.2.2.1, t.2.2.2)) = _
    rw [hn, hu, hih]
    simp only [List.map_cons, List.length_cons, List.range_succ_eq_map, List.map_map]
    refine Prod.ext ?_ (Prod.ext ?_ (Prod.ext ?_ rfl))
    · simp [hu]
    · simp [hn, hu]
    · show r i :: (List.range rest.length).map (fun k => r (i + 1 + k))
          = r (i + 0) :: (List.range rest.length).map ((fun k => r (i + k)) ∘ Nat.succ)
      congr 1
      refine List.map_congr_left ?_
      intro k _
      show r (i + 1 + k) = r (i + k.succ)
      congr 1
      omega

theorem run_ok_trace (env : RunEnv) (profiles : List Profile)
    (hsetup : env.setup = SetupOutcome.ok) (hlogin : env.login_ok = true)
    (hfile : env.file_load = .ok profiles)
    (hwf : ∀ p ∈ profiles, p.name.isSome ∧ p.url.isSome) :
    run env = ⟨true, true,
      profiles.map (fun p => (p.url.getD [], p)),
      profiles.map (fun p => (p.name.getD [], env.connect_result (p.url.getD []) p)),
      (List.range profiles.length).map (fun k => env.rand k),
      none⟩ := by
  obtain ⟨setup, login, file, c, r⟩ := env
  cases hsetup
  cases hlogin
  cases hfile
  show (let t := runLoop c r profiles 0
        RunTrace.mk true true t.1 t.2.1 t.2.2.1 none) = _
  rw [runLoop_wellformed c r profiles 0 hwf]
  simp

/-- C1 counterexample: a run over a single well-formed profile with a
successful login issues one pause (the source sleeps after every
profile, the last included), not zero as the claimed N-1 count
requires. -/
theorem c1_counterexample :
    (run ⟨SetupOutcome.ok, true, .ok [⟨some ['a'], some ['u'], none⟩],
          fun _ _ => true, fun _ => 30⟩).pauses.length = 1 := rfl

/-- C1 amended: over an ordered sequence of N well-formed profiles with
successful setup, login and file load, run issues exactly N pauses,
one after EVERY profile, the final profile included (the correction:
the source does not skip the trailing pause), each drawn from
random.uniform(20, 40) and hence lying in the interval from 20 to 40;
an empty sequence issues no pause. -/
theorem c1_run_pauses_amended (env : RunEnv) (profiles : List Profile)
    (hsetup : env.setup = SetupOutcome.ok) (hlogin : env.login_ok = true)
    (hfile : env.file_load = .ok profiles)
    (hwf : ∀ p ∈ profiles, p.name.isSome ∧ p.url.isSome)
    (hrand : ∀ i, 20 ≤ env.rand i ∧ env.rand i ≤ 40) :
    (run env).pauses.length = profiles.length ∧
    (∀ d ∈ (run env).pauses, 20 ≤ d ∧ d ≤ 40) ∧
    (profiles = [] → (run env).pauses = []) := by
  rw [run_ok_trace env profiles hsetup hlogin hfile hwf]
  refine ⟨by simp, ?_, ?_⟩
  · intro d hd
    rcases List.mem_map.mp hd with ⟨k, _, rfl⟩
    exact hrand k
  · intro h
    subst h
    rfl

/-- C1 witness: the amended theorem at a concrete one-profile run. -/
theorem c1_witness :
    (run ⟨SetupOutcome.ok, true, .ok [⟨some ['a'], some ['u'], none⟩],
          fun _ _ => true, fun _ => 30⟩).pauses.length = 1 ∧
    (∀ d ∈ (run ⟨SetupOutcome.ok, true, .ok [⟨some ['a'], some ['u'], none⟩],
          fun _ _ => true, fun _ => 30⟩).pauses, 20 ≤ d ∧ d ≤ 40) := by
  have h := c1_run_pauses_amended
      ⟨SetupOutcome.ok, true, .ok [⟨some ['a'], some ['u'], none⟩],
        fun _ _ => true, fun _ => 30⟩
      [⟨some ['a'], some ['u'], none⟩] rfl rfl rfl
      (by intro p hp; rcases List.mem_singleton.mp hp; exact ⟨rfl, rfl⟩)
      (by intro i; constructor <;> norm_num)
  exact ⟨h.1, h.2.1⟩

/-- C5 counterexample: the Python method run returns None on a concrete
successful one-profile run (the trace field ret models its return
value), not a sequence of per-profile outcomes; the outcomes exist only
as printed progress lines, recorded here in the outcomes field. -/
theorem c5_counterexample :
    (run ⟨SetupOutcome.ok, true, .ok [⟨some ['a'], some ['u'], none⟩],
          fun _ _ => true, fun _ => 30⟩).ret = none ∧
    (run ⟨SetupOutcome.ok, true, .ok [⟨some ['a'], some ['u'], none⟩],
          fun _ _ => true, fun _ => 30⟩).outcomes = [(['a'], true)] := ⟨rfl, rfl⟩

/-- C5 amended: run returns None (it aggregates nothing for its
caller, the correction this claim needs); what it does do, on a run
with successful setup, login and file load over well-formed profiles,
is record (print) exactly one outcome per profile, in order, pairing
the profile name with the boolean returned by connect_with_profile,
and invoke the workflow exactly once per profile. -/
theorem c5_run_outcomes_amended (env : RunEnv) (profiles : List Profile)
    (hsetup : env.setup = SetupOutcome.ok) (hlogin : env.login_ok = true)
    (hfile : env.file_load = .ok profiles)
    (hwf : ∀ p ∈ profiles, p.name.isSome ∧ p.url.isSome) :
    (run env).ret = none ∧
    (run env).outcomes
        = profiles.map (fun p => (p.name.getD [], env.connect_result (p.url.getD []) p)) ∧
    (run env).outcomes.length = profiles.length ∧
    (run env).connect_calls = profiles.map (fun p => (p.url.getD [], p)) := by
  rw [run_ok_trace env profiles hsetup hlogin hfile hwf]
  exact ⟨rfl, rfl, by simp, rfl⟩

/-- C5 witness: the amended theorem at a concrete two-profile run. -/
theorem c5_witness :
    (run ⟨SetupOutcome.ok, true,
          .ok [⟨some ['a'], some ['u'], none⟩, ⟨some ['b'], some ['v'], none⟩],
          fun u _ => u = ['u'], fun _ => 25⟩).outcomes
      = [(['a'], true), (['b'], false)] := by
  have h := c5_run_outcomes_amended
      ⟨SetupOutcome.ok, true,
        .ok [⟨some ['a'], some ['u'], none⟩, ⟨some ['b'], some ['v'], none⟩],
        fun u _ => u = ['u'], fun _ => 25⟩
      [⟨some ['a'], some ['u'], none⟩, ⟨some ['b'], some ['v'], none⟩] rfl rfl rfl
      (by intro p hp
          rcases List.mem_cons.mp hp with rfl | hp2
          · exact ⟨rfl, rfl⟩
          · rcases List.mem_singleton.mp hp2
            exact ⟨rfl, rfl⟩)
  rw [h.2.1]
  decide

/-- C7: whenever login returns false the run processes no profile: the
outcome list and the connect_with_profile call list are both empty;
and on EVERY exit path on which the driver was created (normal
completion, per-profile exception, fatal exception during login or
setup, login failure) the finally block tears the driver down.  When
setup_driver raises before the driver is assigned there is no driver,
so nothing exists to tear down, and the conclusion is conditional on
driver creation. -/
theorem c7_login_abort_teardown (env : RunEnv) :
    (env.login_ok = false →
        (run env).outcomes = [] ∧ (run env).connect_calls = []) ∧
    ((run env).driver_created = true → (run env).torn_down = true) := by
  obtain ⟨setup, login, file, c, r⟩ := env
  constructor
  · intro hl
    cases hl
    cases setup with
    | ok => exact ⟨rfl, rfl⟩
    | failNoDriver => exact ⟨rfl, rfl⟩
    | failWithDriver => exact ⟨rfl, rfl⟩
  · intro hdc
    cases setup with
    | ok =>
      cases login with
      | false => rfl
      | true =>
        rcases file with e | profiles
        · rfl
        · rfl
    | failNoDriver => simp [run] at hdc
    | failWithDriver => rfl

/-- C7 witness: a failed login on a run whose driver was created:
no outcomes, no workflow invocations, and the driver is torn down. -/
theorem c7_witness :
    ((run ⟨SetupOutcome.ok, false, .ok [⟨some ['a'], some ['u'], none⟩],
           fun _ _ => true, fun _ => 30⟩).outcomes = [] ∧
     (run ⟨SetupOutcome.ok, false, .ok [⟨some ['a'], some ['u'], none⟩],
           fun _ _ => true, fun _ => 30⟩).connect_calls = []) ∧
    (run ⟨SetupOutcome.ok, false, .ok [⟨some ['a'], some ['u'], none⟩],
          fun _ _ => true, fun _ => 30⟩).torn_down = true :=
  ⟨(c7_login_abort_teardown
      ⟨SetupOutcome.ok, false, .ok [⟨some ['a'], some ['u'], none⟩],
        fun _ _ => true, fun _ => 30⟩).1 rfl,
   (c7_login_abort_teardown
      ⟨SetupOutcome.ok, false, .ok [⟨some ['a'], some ['u'], none⟩],
        fun _ _ => true, fun _ => 30⟩).2 rfl⟩
